import Mathlib

/-!
Verification of the signal-preemption engine of the `sumo_simulation`
repository.  The Python sources are shallowly embedded: coordinates are
rationals, the simulator world is an explicit map from junction ids to
signal states, Python dictionaries become association lists, Python
exceptions become `Except` values or explicit failure flags, and the
`try/except` blocks of the sources become the corresponding catch
branches of the embedded functions.

Euclidean distances are handled through their squares (`dist_sq`): the
sources compare `math.dist(p, q)` against constants and against other
distances, and since `Real.sqrt` is strictly monotone on nonnegative
numbers every such comparison is equivalent to the comparison of the
squares.  Theorems that speak about the Euclidean distance itself state
it with `Real.sqrt` applied to the (rational, computable) squared
distance.
-/

set_option maxHeartbeats 1000000

namespace SumoSim

/-- Squared Euclidean distance between two points, the square of Python's
`math.dist(p, q)` (used in `light_manager.py`, `route_predictor.py` and
`control_emergency.py`). -/
def dist_sq (p q : ℚ × ℚ) : ℚ :=
  (p.1 - q.1) * (p.1 - q.1) + (p.2 - q.2) * (p.2 - q.2)

/-- The proximity test of the sources: `light_manager.py` line 39 and
`control_emergency.py` line 70 both read `if distance < 50:` where
`distance` is the Euclidean distance from the emergency vehicle to the
junction.  `distance < 50` is equivalent to `distance² < 2500` because
both sides are nonnegative. -/
def isWithinRange (p q : ℚ × ℚ) : Bool :=
  decide (dist_sq p q < 50 * 50)

/-! ### Association lists

Python dictionaries (`self.original_states`, the `networkx` node and
edge attribute maps) are embedded as association lists in insertion
order; assignment to an existing key overwrites the value in place,
assignment to a fresh key appends, matching the iteration-order
semantics of CPython dicts and of `networkx` graphs. -/

/-- Lookup in an association list (first entry with the given key). -/
def dictLookup {κ β : Type} [DecidableEq κ] (k : κ) (l : List (κ × β)) : Option β :=
  (l.find? (fun p => decide (p.1 = k))).map (·.2)

/-- Dictionary assignment: overwrite in place or append. -/
def dictInsert {κ β : Type} [DecidableEq κ] (k : κ) (v : β) :
    List (κ × β) → List (κ × β)
  | [] => [(k, v)]
  | (k', v') :: rest =>
      if k' = k then (k, v) :: rest else (k', v') :: dictInsert k v rest

/-- Dictionary deletion (Python `del d[k]`). -/
def dictErase {κ β : Type} [DecidableEq κ] (k : κ) :
    List (κ × β) → List (κ × β)
  | [] => []
  | (k', v') :: rest =>
      if k' = k then rest else (k', v') :: dictErase k rest

/-! ### Python `min(iterable, key=...)`

`route_predictor.find_emergency_route` (lines 99-106) and
`light_manager.manage_traffic_lights` (lines 32-35) pick the nearest
junction with `min(nodes, key=lambda j: math.dist(point, pos(j)))`.
Python's `min` scans left to right and replaces the current best only on
a strictly smaller key, so it returns the first element attaining the
minimal key and raises `ValueError` on an empty iterable (modelled as
`none`). -/

/-- First element of the list attaining the minimal key; `none` on `[]`. -/
def minByKey {α : Type} (f : α → ℚ) : List α → Option α
  | [] => none
  | x :: xs =>
      match minByKey f xs with
      | none => some x
      | some y => some (if f y < f x then y else x)

/-- The nearest-junction lookup of `find_emergency_route` lines 99-106:
`min(self.graph.nodes, key=lambda j: math.dist(point, pos(j)))` over the
node list (insertion order).  Comparing `math.dist` values is equivalent
to comparing squared distances. -/
def nearestJunction (p : ℚ × ℚ) (nodes : List (String × ℚ × ℚ)) :
    Option (String × ℚ × ℚ) :=
  minByKey (fun n => dist_sq p n.2) nodes

/-! ### Network graph construction

`route_predictor._parse_network_file` (lines 48-83).  XML decoding is out
of scope (the spec treats the network description as pre-parsed): a
junction record carries its id and its two coordinates, where `none`
embeds a coordinate string on which Python's `float()` raises (the
`except (TypeError, ValueError)` branch at lines 58-59); an edge record
carries its `from`/`to` attributes (empty string when absent, matching
`edge.get('from', '')`).  The `networkx` node and edge maps become
association lists in insertion order; `add_node`/`add_edge` on an
existing key overwrite in place (`dictInsert`).  The stored edge weight
is the square of `math.dist(from_pos, to_pos)`; no verified property
depends on the weight's value. -/

structure JunctionRec where
  id : String
  x : Option ℚ
  y : Option ℚ
deriving DecidableEq

structure EdgeRec where
  src : String
  dst : String
deriving DecidableEq

structure NetGraph where
  nodes : List (String × ℚ × ℚ)
  edges : List ((String × String) × ℚ)
  warnings : List String
deriving DecidableEq

/-- Python's `junc_id.startswith(':')` (line 51): true exactly when the
first character is a colon. -/
def startsWithColon (s : String) : Bool :=
  match s.data with
  | [] => false
  | c :: _ => c = ':'

/-- One iteration of the junction loop (lines 48-59): skip internal
junctions (ids starting with a colon), log a warning on a coordinate
error, otherwise add the node. -/
def addJunction (acc : List (String × ℚ × ℚ) × List String) (j : JunctionRec) :
    List (String × ℚ × ℚ) × List String :=
  if startsWithColon j.id then acc
  else
    match j.x, j.y with
    | some x, some y => (dictInsert j.id (x, y) acc.1, acc.2)
    | _, _ =>
        (acc.1, acc.2 ++ ["Skipping junction " ++ j.id ++ " due to coordinate error"])

/-- One iteration of the edge loop (lines 62-74): the edge is added only
when both endpoint attributes are non-empty and both endpoints are
present in the node map; otherwise it is skipped, and no warning is
logged. -/
def addEdge (nodes : List (String × ℚ × ℚ)) (acc : List ((String × String) × ℚ))
    (e : EdgeRec) : List ((String × String) × ℚ) :=
  if e.src ≠ "" ∧ e.dst ≠ "" then
    match dictLookup e.src nodes, dictLookup e.dst nodes with
    | some ps, some pd => dictInsert (e.src, e.dst) (dist_sq ps pd) acc
    | _, _ => acc
  else acc

def parse_network_file (js : List JunctionRec) (es : List EdgeRec) : NetGraph :=
  let nw := js.foldl addJunction ([], [])
  { nodes := nw.1, edges := es.foldl (addEdge nw.1) [], warnings := nw.2 }

/-! ### Routing: `find_emergency_route` (route_predictor lines 85-136) -/

/-- Successors of `u` in the edge list. -/
def succs (edges : List ((String × String) × ℚ)) (u : String) : List String :=
  edges.filterMap (fun e => if e.1.1 = u then some e.1.2 else none)

/-- Modelled from the library contract of `networkx.shortest_path`
(called at line 110): it returns a node list from `u` to `t` when one
exists and raises `NetworkXNoPath` (embedded as `none`) otherwise; for
`u = t` it returns the single-node list `[u]`.  The verified claims are
independent of which path is returned (only of its existence and of the
`u = t` case), so the model searches simple paths depth-first, with fuel
bounding the recursion depth. -/
def pathSearch (edges : List ((String × String) × ℚ)) :
    Nat → List String → String → String → Option (List String)
  | 0, _, _, _ => none
  | n + 1, visited, u, t =>
      if u = t then some [u]
      else
        (succs edges u).findSome? (fun v =>
          if v ∈ visited then none
          else
            match pathSearch edges n (v :: visited) v t with
            | some p => some (u :: p)
            | none => none)

def nx_shortest_path (g : NetGraph) (a b : String) : Option (List String) :=
  pathSearch g.edges (g.nodes.length + 1) [a] a b

/-- Reachability along the directed edges of the graph. -/
inductive Reaches (edges : List ((String × String) × ℚ)) : String → String → Prop
  | refl (a : String) : Reaches edges a a
  | step {a b c : String} (w : ℚ) (h : ((a, b), w) ∈ edges)
      (hr : Reaches edges b c) : Reaches edges a c

/-- The `connecting_edges`/`priority_lanes` comprehension at lines
122-128: all graph edges from `a` to `b`, rendered as
`f"{edge[0]}_{edge[1]}"`. -/
def connecting_lanes (g : NetGraph) (a b : String) : List String :=
  (g.edges.filter (fun e => decide (e.1.1 = a) && decide (e.1.2 = b))).map
    (fun e => e.1.1 ++ "_" ++ e.1.2)

/-- The pairing loop at lines 116-130: `for i in range(len(route) - 1)`
appends one `(junction, priority_lanes)` pair per CONSECUTIVE pair of
route junctions; a route of length 1 yields zero pairs. -/
def junction_routes (g : NetGraph) : List String → List (String × List String)
  | [] => []
  | [_] => []
  | a :: b :: rest => (a, connecting_lanes g a b) :: junction_routes g (b :: rest)

/-- `find_emergency_route` (lines 85-136): nearest junctions to the two
query points (Python `min`, a `ValueError` on an empty graph is caught
by the outer handler, returning `[]`), then `nx.shortest_path`
(`NetworkXNoPath` caught at lines 111-113, returning `[]`), then the
pairing loop. -/
def find_emergency_route (g : NetGraph) (start_point end_point : ℚ × ℚ) :
    List (String × List String) :=
  match nearestJunction start_point g.nodes, nearestJunction end_point g.nodes with
  | some sj, some ej =>
      match nx_shortest_path g sj.1 ej.1 with
      | none => []
      | some route => junction_routes g route
  | _, _ => []

/-! ### Traffic light manager (light_manager.py)

The simulator world is a map from junction ids to signal states; the
TraCI calls of the manager read and write it.  Failures of individual
TraCI calls (the transport errors the spec calls
`PortTransportError`/`SignalReadWriteError`) are injected through an
environment of per-junction failure flags; a failing call makes the
enclosing `try` block take its `except` branch. -/

/-- Signal state of one junction as seen through `traci.trafficlight`:
the phase state strings of the current program logic
(`getCompleteRedYellowGreenDefinition(j)[0].phases`), the current phase
index, the active program identifier (`getProgram`) and the current
phase duration (`getPhaseDuration`). -/
structure TLState where
  phases : List String
  phaseIndex : Nat
  program : String
  phaseDuration : ℚ
deriving DecidableEq

/-- `traci.trafficlight.getRedYellowGreenState`: the state string of the
currently shown phase. -/
def displayedState (t : TLState) : String :=
  t.phases.getD t.phaseIndex ""

def World : Type := String → TLState

def updateW (w : World) (j : String) (t : TLState) : World :=
  fun j' => if j' = j then t else w j'

/-- One entry of `self.original_states` (lines 120-125). -/
structure Snapshot where
  state : String
  program : String
  phase_duration : ℚ
  complete_definition : List String
deriving DecidableEq

/-- Manager state: the `original_states` dict and the
`active_emergency_junctions` set (as an insertion-ordered list). -/
structure MgrState where
  original_states : List (String × Snapshot)
  active_emergency_junctions : List String
deriving DecidableEq

/-- Per-junction TraCI failure injection: reads during capture, writes
during override application, writes during restore. -/
structure Env where
  captureFails : String → Bool
  applyFails : String → Bool
  restoreFails : String → Bool

def noFailEnv : Env :=
  { captureFails := fun _ => false,
    applyFails := fun _ => false,
    restoreFails := fun _ => false }

/-- The snapshot read by `_capture_original_state` (lines 120-125). -/
def snapshotOf (t : TLState) : Snapshot :=
  { state := displayedState t, program := t.program,
    phase_duration := t.phaseDuration, complete_definition := t.phases }

/-- `_capture_original_state` (lines 117-127): stores the snapshot; its
own `try/except` leaves the dict unchanged when the TraCI read fails. -/
def capture_original_state (env : Env) (j : String) (w : World) (s : MgrState) :
    MgrState :=
  if env.captureFails j then s
  else { s with original_states := dictInsert j (snapshotOf (w j)) s.original_states }

/-- The guarded capture of `_set_junction_priority` lines 70-72 — the
spec's `SignalStateStore.capture`: read and store the snapshot only if
none is stored yet. -/
def capture (env : Env) (j : String) (w : World) (s : MgrState) : MgrState :=
  if (dictLookup j s.original_states).isSome then s
  else capture_original_state env j w s

/-- Python's `"G" in phase.state`. -/
def containsG (ph : String) : Bool :=
  ph.data.any (fun c => c = 'G')

/-- The override application of `_set_junction_priority` lines 100-110
on one signal state: set the phase to the first phase whose state string
contains a `G` (no phase change if none does), then pin the phase
duration to `MIN_PHASE_DURATION = 5`.  The `new_state` string built at
lines 83-97 is never sent to the simulator, so it has no observable
effect and is not modelled. -/
def overrideTL (t : TLState) : TLState :=
  match t.phases.findIdx? containsG with
  | some i => { t with phaseIndex := i, phaseDuration := 5 }
  | none => { t with phaseDuration := 5 }

def applyOverride (j : String) (w : World) : World :=
  updateW w j (overrideTL (w j))

/-- `_set_junction_priority` (lines 61-115): guarded capture, then the
apply section; any exception in the apply section (vehicle-route reads
at lines 78-80 or the signal writes) is caught by the handler at lines
114-115, after the capture has already happened. -/
def set_junction_priority (env : Env) (j : String) (s : MgrState) (w : World) :
    MgrState × World :=
  (capture env j w s, if env.applyFails j then w else applyOverride j w)

/-- `_restore_junction` (lines 129-140): if a snapshot exists, set the
stored program identifier, set phase index 0 (NOT the captured phase or
state string), delete the snapshot; any TraCI failure is caught by its
own handler, leaving the junction and the snapshot in place.  No-op
without a snapshot. -/
def restore_junction (env : Env) (j : String) (s : MgrState) (w : World) :
    MgrState × World :=
  match dictLookup j s.original_states with
  | none => (s, w)
  | some snap =>
      if env.restoreFails j then (s, w)
      else
        ({ s with original_states := dictErase j s.original_states },
         updateW w j { w j with program := snap.program, phaseIndex := 0 })

/-! ### `manage_traffic_lights` (lines 19-51) -/

inductive PyExc
  | attributeError
  | valueError
deriving DecidableEq

/-- The body of `manage_traffic_lights` (lines 24-48), up to the
top-level `except`.  Inputs: the detected emergency vehicle ids
(`detect_emergency_vehicles` is itself exception-free), the junction id
list `self.emergency_vehicle_manager.all_junctions`, and the current
state.  With at least one vehicle, the first loop iteration evaluates
`self.route_predictor` (lines 32-37) — but `TrafficLightManager.__init__`
(lines 7-17) sets only `logger`, `emergency_vehicle_manager`,
`original_states`, `active_emergency_junctions` and
`MIN_PHASE_DURATION`, and no code ever assigns a `route_predictor`
attribute to the manager, so Python raises `AttributeError`; with an
empty junction list, `min` over the empty sequence raises `ValueError`
first.  Either way the loop aborts before any assignment to
`self.original_states` or `self.active_emergency_junctions` (the loop
mutates only the local `current_emergency_junctions`).  With no
vehicles, the loop is skipped and the junctions to restore are
`active_emergency_junctions - current = active_emergency_junctions`. -/
def manage_body (env : Env) (allJunctions : List String) (vehicles : List String)
    (s : MgrState) (w : World) : Except PyExc (MgrState × World) :=
  match vehicles with
  | [] =>
      let sw := s.active_emergency_junctions.foldl
        (fun (acc : MgrState × World) j => restore_junction env j acc.1 acc.2) (s, w)
      .ok ({ sw.1 with active_emergency_junctions := [] }, sw.2)
  | _ :: _ =>
      .error (if allJunctions.isEmpty then .valueError else .attributeError)

/-- `manage_traffic_lights` (lines 19-51): the body under
`try/except Exception` — an exception is logged (line 51) and the method
returns with the state unchanged. -/
def manage_traffic_lights (env : Env) (allJunctions : List String)
    (vehicles : List String) (s : MgrState) (w : World) : MgrState × World :=
  match manage_body env allJunctions vehicles s w with
  | .ok r => r
  | .error _ => (s, w)

/-! ### Per-junction fault containment (C4)

Making every TraCI operation on one junction `k` fail changes nothing
observable at any other junction within the tick: the override loop and
the restore loop trap exceptions per junction
(`_set_junction_priority` lines 114-115, `_restore_junction` lines
139-140, `_capture_original_state` lines 126-127), so the loops always
run to completion. -/

/-- The entries of an association list whose key differs from `k`. -/
def dropKey {κ β : Type} [DecidableEq κ] (k : κ) (l : List (κ × β)) :
    List (κ × β) :=
  l.filter (fun p => decide (p.1 ≠ k))

/-- Make every TraCI operation fail for junction `k`. -/
def failAllAt (k : String) (env : Env) : Env :=
  { captureFails := fun j => if j = k then true else env.captureFails j,
    applyFails := fun j => if j = k then true else env.applyFails j,
    restoreFails := fun j => if j = k then true else env.restoreFails j }

/-- One controller tick's per-junction loops: the override loop (lines
40-41, one `_set_junction_priority` call per detected vehicle's nearest
junction) followed by the restore loop (lines 45-46; the same loop body
as the shutdown loop `restore_traffic_lights`, lines 142-145). -/
def run_tick (env : Env) (overrides restores : List String) (s : MgrState)
    (w : World) : MgrState × World :=
  let sw := overrides.foldl
    (fun (acc : MgrState × World) j => set_junction_priority env j acc.1 acc.2) (s, w)
  restores.foldl
    (fun (acc : MgrState × World) j => restore_junction env j acc.1 acc.2) sw

/-- Two controller configurations agree at every junction other than
`k`: same signal state and same stored snapshot. -/
def agreeOutside (k : String) (a b : MgrState × World) : Prop :=
  (∀ j, j ≠ k → a.2 j = b.2 j) ∧
  dropKey k a.1.original_states = dropKey k b.1.original_states

/-! ### The single-cluster controller (`control_emergency.py`)

This is the only variant in the repository implementing the restoration
delay; `manage_traffic_lights` restores in the same tick its junctions
lose their vehicles (lines 43-48 of `light_manager.py`) and, by C3,
never creates an override in the first place. -/

/-- One `while`-loop iteration's inputs: the simulation time read at the
top of the iteration (line 43) and the emergency vehicles present after
the step (lines 47-50), each with its squared Euclidean distance to the
target cluster (lines 64-67). -/
structure EmTick where
  time : ℚ
  vehicles : List (String × ℚ)
deriving DecidableEq

/-- Controller state across iterations: `emergency_detected`,
`last_emergency_time`, and whether the cluster's signal definition
currently carries the all-green override (written at lines 75-79). -/
structure EmState where
  emergency_detected : Bool
  last_emergency_time : ℚ
  overridden : Bool
deriving DecidableEq

def emInit : EmState := ⟨false, 0, false⟩

/-- The loop body of `run_emergency_vehicle` (lines 42-114): when
emergency vehicles are present, set `emergency_detected`, refresh
`last_emergency_time` (lines 52-54), and override the cluster for each
vehicle with distance < 50 (line 70, strict); afterwards, when a prior
emergency was detected, no emergency vehicle is present and
`current_time - last_emergency_time > 5` (line 91, STRICT comparison,
restoration delay 5), reapply the captured original definition and
program and clear the flag (lines 92-112). -/
def emStep (st : EmState) (tk : EmTick) : EmState :=
  let st1 :=
    if tk.vehicles.isEmpty then st
    else
      { st with
        emergency_detected := true
        last_emergency_time := tk.time
        overridden := st.overridden
          || tk.vehicles.any (fun v => decide (v.2 < 50 * 50)) }
  if st1.emergency_detected && tk.vehicles.isEmpty
      && decide (5 < tk.time - st1.last_emergency_time) then
    { st1 with emergency_detected := false, overridden := false }
  else st1

def runEm (st : EmState) (ticks : List EmTick) : EmState :=
  ticks.foldl emStep st


theorem dist_sq_nonneg (p q : ℚ × ℚ) : 0 ≤ dist_sq p q :=
  add_nonneg (mul_self_nonneg _) (mul_self_nonneg _)

/-- `isWithinRange` holds exactly when the Euclidean distance is
strictly below the radius 50. -/
theorem isWithinRange_iff_sqrt (p q : ℚ × ℚ) :
    isWithinRange p q = true ↔ Real.sqrt ((dist_sq p q : ℚ) : ℝ) < 50 := by
  have h50 : (0:ℝ) < 50 := by norm_num
  rw [isWithinRange, decide_eq_true_iff, Real.sqrt_lt' h50]
  rw [show ((50:ℝ) ^ 2) = (((50 * 50 : ℚ) : ℚ) : ℝ) by norm_num]
  exact (Rat.cast_lt (K := ℝ)).symm

theorem dictLookup_nil {κ β : Type} [DecidableEq κ] (k : κ) :
    dictLookup k ([] : List (κ × β)) = none := rfl

theorem dictLookup_cons {κ β : Type} [DecidableEq κ] (k : κ) (p : κ × β)
    (l : List (κ × β)) :
    dictLookup k (p :: l) = if p.1 = k then some p.2 else dictLookup k l := by
  by_cases h : p.1 = k <;> simp [dictLookup, List.find?, h]

theorem dictLookup_dictInsert_self {κ β : Type} [DecidableEq κ] (k : κ) (v : β) :
    ∀ l : List (κ × β), dictLookup k (dictInsert k v l) = some v := by
  intro l
  induction l with
  | nil => simp [dictInsert, dictLookup_cons, dictLookup_nil]
  | cons p rest ih =>
      by_cases h : p.1 = k
      · simp [dictInsert, h, dictLookup_cons]
      · simpa [dictInsert, h, dictLookup_cons] using ih

theorem dictLookup_dictInsert_ne {κ β : Type} [DecidableEq κ] (k k' : κ) (v : β)
    (hne : k' ≠ k) :
    ∀ l : List (κ × β), dictLookup k' (dictInsert k v l) = dictLookup k' l := by
  intro l
  induction l with
  | nil => simp [dictInsert, dictLookup_cons, dictLookup_nil, Ne.symm hne]
  | cons p rest ih =>
      by_cases h : p.1 = k
      · simp [dictInsert, h, dictLookup_cons, Ne.symm hne]
      · simp [dictInsert, h, dictLookup_cons, ih]

theorem dictLookup_dictErase_ne {κ β : Type} [DecidableEq κ] (k k' : κ)
    (hne : k' ≠ k) :
    ∀ l : List (κ × β), dictLookup k' (dictErase k l) = dictLookup k' l := by
  intro l
  induction l with
  | nil => rfl
  | cons p rest ih =>
      by_cases h : p.1 = k
      · have hp : p.1 ≠ k' := fun hh => hne (hh ▸ h ▸ rfl)
        simp [dictErase, h, dictLookup_cons, hp, Ne.symm hne]
      · simp [dictErase, h, dictLookup_cons, ih]

theorem minByKey_nil {α : Type} (f : α → ℚ) : minByKey f ([] : List α) = none := rfl

theorem minByKey_cons_isSome {α : Type} (f : α → ℚ) (x : α) (xs : List α) :
    (minByKey f (x :: xs)).isSome := by
  cases hm : minByKey f xs <;> simp [minByKey, hm]

theorem minByKey_eq_none_iff {α : Type} (f : α → ℚ) :
    ∀ l : List α, minByKey f l = none ↔ l = [] := by
  intro l
  cases l with
  | nil => simp [minByKey]
  | cons x xs =>
      constructor
      · intro h
        have := minByKey_cons_isSome f x xs
        rw [h] at this
        exact absurd this (by simp)
      · intro h
        exact absurd h (by simp)

theorem find?_congr {α : Type} {p q : α → Bool} :
    ∀ {l : List α}, (∀ a ∈ l, p a = q a) → l.find? p = l.find? q := by
  intro l
  induction l with
  | nil => intro _; rfl
  | cons x xs ih =>
      intro h
      have hx := h x (List.mem_cons_self _ _)
      have hrest := ih (fun a ha => h a (List.mem_cons_of_mem _ ha))
      cases hq : q x with
      | true => simp [List.find?, hx, hq]
      | false => simp [List.find?, hx, hq, hrest]

/-- `minByKey` is the first element whose key is a global minimum of the
keys in the list: exactly Python's tie-breaking by first-encountered
iteration order. -/
theorem minByKey_eq_find? {α : Type} (f : α → ℚ) :
    ∀ l : List α,
      minByKey f l = l.find? (fun y => l.all (fun z => decide (f y ≤ f z))) := by
  intro l
  induction l with
  | nil => rfl
  | cons x xs ih =>
      cases hm : minByKey f xs with
      | none =>
          have hxs : xs = [] := (minByKey_eq_none_iff f xs).1 hm
          subst hxs
          simp [minByKey, List.find?]
      | some y =>
          have hfind : xs.find? (fun a => xs.all (fun z => decide (f a ≤ f z))) = some y := by
            rw [← ih]; exact hm
          have hPy := List.find?_some hfind
          have hmin : ∀ z ∈ xs, f y ≤ f z := by
            intro z hz
            exact of_decide_eq_true ((List.all_eq_true.1 hPy) z hz)
          have hymem : y ∈ xs := List.mem_of_find?_eq_some hfind
          by_cases hlt : f y < f x
          · have hPx : ((x :: xs).all (fun z => decide (f x ≤ f z))) = false := by
              cases hall : ((x :: xs).all (fun z => decide (f x ≤ f z))) with
              | false => rfl
              | true =>
                  exfalso
                  have := of_decide_eq_true
                    ((List.all_eq_true.1 hall) y (List.mem_cons_of_mem _ hymem))
                  exact absurd this (not_le.2 hlt)
            have hcong : ∀ a ∈ xs,
                ((x :: xs).all (fun z => decide (f a ≤ f z)))
                  = (xs.all (fun z => decide (f a ≤ f z))) := by
              intro a _
              cases hPa : (xs.all (fun z => decide (f a ≤ f z))) with
              | true =>
                  have hay : f a ≤ f y :=
                    of_decide_eq_true ((List.all_eq_true.1 hPa) y hymem)
                  have hax : f a ≤ f x := le_of_lt (lt_of_le_of_lt hay hlt)
                  simp [List.all_cons, hPa, hax]
              | false => simp [List.all_cons, hPa]
            calc minByKey f (x :: xs) = some y := by simp [minByKey, hm, if_pos hlt]
              _ = xs.find? (fun a => xs.all (fun z => decide (f a ≤ f z))) := hfind.symm
              _ = xs.find? (fun a => (x :: xs).all (fun z => decide (f a ≤ f z))) :=
                    (find?_congr hcong).symm
              _ = (x :: xs).find? (fun a => (x :: xs).all (fun z => decide (f a ≤ f z))) := by
                    simp [List.find?, hPx]
          · have hxy : f x ≤ f y := le_of_not_lt hlt
            have hPx : ((x :: xs).all (fun z => decide (f x ≤ f z))) = true := by
              rw [List.all_eq_true]
              intro z hz
              rcases List.mem_cons.1 hz with h | h
              · subst h; simp
              · exact decide_eq_true (le_trans hxy (hmin z h))
            simp [minByKey, hm, if_neg hlt, List.find?, hPx]

/-- C10: on a non-empty node list the lookup returns a junction whose
Euclidean distance to the query point is ≤ the distance to every other
junction, ties broken by first-encountered order (it is the first global
minimum of the scan); on an empty node list it fails (`none`, the
embedded `ValueError` of Python's `min`) instead of returning a
junction. -/
theorem nearest_junction_contract (p : ℚ × ℚ) (nodes : List (String × ℚ × ℚ)) :
    (nodes = [] → nearestJunction p nodes = none) ∧
    (nodes ≠ [] → (nearestJunction p nodes).isSome) ∧
    nearestJunction p nodes =
      nodes.find? (fun n => nodes.all (fun m => decide (dist_sq p n.2 ≤ dist_sq p m.2))) ∧
    (∀ n, nearestJunction p nodes = some n →
      n ∈ nodes ∧ ∀ m ∈ nodes,
        Real.sqrt ((dist_sq p n.2 : ℚ) : ℝ) ≤ Real.sqrt ((dist_sq p m.2 : ℚ) : ℝ)) := by
  refine ⟨?_, ?_, ?_, ?_⟩
  · intro h; subst h; rfl
  · intro h
    cases nodes with
    | nil => exact absurd rfl h
    | cons x xs => exact minByKey_cons_isSome _ x xs
  · exact minByKey_eq_find? _ nodes
  · intro n hn
    have heq := minByKey_eq_find? (fun n => dist_sq p n.2) nodes
    have hfind : nodes.find?
        (fun n => nodes.all (fun m => decide (dist_sq p n.2 ≤ dist_sq p m.2))) = some n := by
      rw [← heq]; exact hn
    refine ⟨List.mem_of_find?_eq_some hfind, ?_⟩
    intro m hm
    have hall := List.find?_some hfind
    have hq : dist_sq p n.2 ≤ dist_sq p m.2 :=
      of_decide_eq_true ((List.all_eq_true.1 hall) m hm)
    have hr : ((dist_sq p n.2 : ℚ) : ℝ) ≤ ((dist_sq p m.2 : ℚ) : ℝ) := by exact_mod_cast hq
    exact Real.sqrt_le_sqrt hr

unseal Rat.mul Rat.add Rat.sub in
/-- Witness for C10 at a concrete graph: two junctions, the first one
nearer to the query point. -/
theorem nearest_junction_contract_witness :
    nearestJunction (1, 0) [("A", (0, 0)), ("B", (3, 0))] = some ("A", (0, 0)) ∧
    Real.sqrt ((dist_sq (1, 0) ("A", ((0:ℚ), (0:ℚ))).2 : ℚ) : ℝ)
      ≤ Real.sqrt ((dist_sq (1, 0) ("B", ((3:ℚ), (0:ℚ))).2 : ℚ) : ℝ) := by
  have h := nearest_junction_contract (1, 0) [("A", (0, 0)), ("B", (3, 0))]
  have hsome : nearestJunction (1, 0) [("A", (0, 0)), ("B", (3, 0))]
      = some ("A", (0, 0)) := by decide
  exact ⟨hsome, (h.2.2.2 _ hsome).2 ("B", (3, 0)) (by simp)⟩

theorem mem_dictInsert {κ β : Type} [DecidableEq κ] (k : κ) (v : β) :
    ∀ (l : List (κ × β)) (p : κ × β), p ∈ dictInsert k v l → p = (k, v) ∨ p ∈ l := by
  intro l
  induction l with
  | nil =>
      intro p hp
      simp [dictInsert] at hp
      exact Or.inl hp
  | cons q rest ih =>
      intro p hp
      by_cases h : q.1 = k
      · simp [dictInsert, h] at hp
        rcases hp with h1 | h1
        · exact Or.inl (by simp [h1])
        · exact Or.inr (List.mem_cons_of_mem _ h1)
      · simp [dictInsert, h] at hp
        rcases hp with h1 | h1
        · exact Or.inr (by simp [h1])
        · rcases ih p h1 with h2 | h2
          · exact Or.inl h2
          · exact Or.inr (List.mem_cons_of_mem _ h2)

theorem dictLookup_dictInsert_isSome {κ β : Type} [DecidableEq κ] (k k' : κ)
    (v : β) (l : List (κ × β)) (h : (dictLookup k' l).isSome) :
    (dictLookup k' (dictInsert k v l)).isSome := by
  by_cases hk : k' = k
  · subst hk
    simp [dictLookup_dictInsert_self]
  · rwa [dictLookup_dictInsert_ne k k' v hk]

theorem foldl_inv {α σ : Type} (P : σ → Prop) (f : σ → α → σ)
    (hf : ∀ s a, P s → P (f s a)) : ∀ (l : List α) (s : σ), P s → P (l.foldl f s) := by
  intro l
  induction l with
  | nil => intro s h; exact h
  | cons x xs ih => intro s h; exact ih _ (hf s x h)

theorem foldl_estab {α σ : Type} (Q : σ → Prop) (f : σ → α → σ)
    (hpres : ∀ s a, Q s → Q (f s a)) (a : α) (hest : ∀ s, Q (f s a)) :
    ∀ (l : List α) (s : σ), a ∈ l → Q (l.foldl f s) := by
  intro l
  induction l with
  | nil => intro s h; simp at h
  | cons x xs ih =>
      intro s h
      rcases List.mem_cons.1 h with h1 | h1
      · subst h1
        exact foldl_inv Q f hpres xs _ (hest s)
      · exact ih _ h1

/-- C7 (amended): every edge of the constructed graph has both
endpoints present in the node map; a segment referencing an unknown (or
empty) junction id is dropped silently — the warning list is exactly the
one produced by the junction loop, independent of the segments — while
construction still succeeds: every valid segment is present; and
internal junctions (ids beginning with a colon) never enter the node
map. -/
theorem parse_network_invariants (js : List JunctionRec) (es : List EdgeRec) :
    (∀ e ∈ (parse_network_file js es).edges,
      (dictLookup e.1.1 (parse_network_file js es).nodes).isSome ∧
      (dictLookup e.1.2 (parse_network_file js es).nodes).isSome) ∧
    (∀ p ∈ (parse_network_file js es).nodes, startsWithColon p.1 = false) ∧
    (parse_network_file js es).warnings = (parse_network_file js []).warnings ∧
    (∀ e ∈ es, e.src ≠ "" → e.dst ≠ "" →
      (dictLookup e.src (parse_network_file js es).nodes).isSome →
      (dictLookup e.dst (parse_network_file js es).nodes).isSome →
      (dictLookup (e.src, e.dst) (parse_network_file js es).edges).isSome) := by
  refine ⟨?_, ?_, rfl, ?_⟩
  · set nodes := (js.foldl addJunction ([], [])).1 with hnodes
    have hinv : ∀ (acc : List ((String × String) × ℚ)) (e : EdgeRec),
        (∀ q ∈ acc, (dictLookup q.1.1 nodes).isSome ∧ (dictLookup q.1.2 nodes).isSome) →
        ∀ q ∈ addEdge nodes acc e,
          (dictLookup q.1.1 nodes).isSome ∧ (dictLookup q.1.2 nodes).isSome := by
      intro acc e hacc q hq
      by_cases hne : e.src ≠ "" ∧ e.dst ≠ ""
      · rw [addEdge, if_pos hne] at hq
        cases hs : dictLookup e.src nodes with
        | none => rw [hs] at hq; exact hacc q hq
        | some ps =>
            cases hd : dictLookup e.dst nodes with
            | none => rw [hs, hd] at hq; exact hacc q hq
            | some pd =>
                rw [hs, hd] at hq
                rcases mem_dictInsert _ _ _ _ hq with h1 | h1
                · subst h1
                  exact ⟨by simp [hs], by simp [hd]⟩
                · exact hacc q h1
      · rw [addEdge, if_neg hne] at hq
        exact hacc q hq
    intro e he
    exact foldl_inv
      (fun acc => ∀ q ∈ acc,
        (dictLookup q.1.1 nodes).isSome ∧ (dictLookup q.1.2 nodes).isSome)
      (addEdge nodes) hinv es [] (by intro q hq; simp at hq) e he
  · have hinv : ∀ (acc : List (String × ℚ × ℚ) × List String) (j : JunctionRec),
        (∀ p ∈ acc.1, startsWithColon p.1 = false) →
        ∀ p ∈ (addJunction acc j).1, startsWithColon p.1 = false := by
      intro acc j hacc p hp
      by_cases hint : startsWithColon j.id
      · rw [addJunction, if_pos hint] at hp
        exact hacc p hp
      · rw [addJunction, if_neg hint] at hp
        cases hx : j.x with
        | none => rw [hx] at hp; exact hacc p hp
        | some x =>
            cases hy : j.y with
            | none => rw [hx, hy] at hp; exact hacc p hp
            | some y =>
                rw [hx, hy] at hp
                rcases mem_dictInsert _ _ _ _ hp with h1 | h1
                · subst h1
                  simpa using hint
                · exact hacc p h1
    intro p hp
    exact foldl_inv (fun acc => ∀ q ∈ acc.1, startsWithColon q.1 = false)
      addJunction hinv js ([], []) (by intro q hq; simp at hq) p hp
  · intro e he hs hd hls hld
    simp only [parse_network_file] at hls hld ⊢
    set nodes := (js.foldl addJunction ([], [])).1 with hnodes
    have hpres : ∀ (acc : List ((String × String) × ℚ)) (a : EdgeRec),
        (dictLookup (e.src, e.dst) acc).isSome →
        (dictLookup (e.src, e.dst) (addEdge nodes acc a)).isSome := by
      intro acc a hacc
      rw [addEdge]
      by_cases hne : a.src ≠ "" ∧ a.dst ≠ ""
      · rw [if_pos hne]
        cases hsa : dictLookup a.src nodes with
        | none => exact hacc
        | some ps =>
            cases hda : dictLookup a.dst nodes with
            | none => exact hacc
            | some pd => exact dictLookup_dictInsert_isSome _ _ _ _ hacc
      · rw [if_neg hne]
        exact hacc
    have hest : ∀ acc : List ((String × String) × ℚ),
        (dictLookup (e.src, e.dst) (addEdge nodes acc e)).isSome := by
      intro acc
      rw [addEdge, if_pos ⟨hs, hd⟩]
      cases hsa : dictLookup e.src nodes with
      | none => rw [hsa] at hls; exact absurd hls (by simp)
      | some ps =>
          cases hda : dictLookup e.dst nodes with
          | none => rw [hda] at hld; exact absurd hld (by simp)
          | some pd => simp [dictLookup_dictInsert_self]
    exact foldl_estab (fun acc => (dictLookup (e.src, e.dst) acc).isSome)
      (addEdge nodes) hpres e hest es [] he

/-- Counterexample to C7 as stated: the segment `A → ZZZ` references the
unknown junction `ZZZ`; it is dropped, but the warning list stays empty
— the code logs warnings only for junction coordinate errors, never for
dropped segments. -/
theorem parse_network_counterexample :
    (parse_network_file [⟨"A", some 0, some 0⟩] [⟨"A", "ZZZ"⟩]).edges = [] ∧
    (parse_network_file [⟨"A", some 0, some 0⟩] [⟨"A", "ZZZ"⟩]).warnings = [] := by
  constructor <;> rfl

unseal Rat.mul Rat.add Rat.sub in
/-- Witness for C7 on a concrete network: a valid segment `A → B`
survives construction, the internal junction `:I` is excluded, and the
invalid segment `A → Q` leaves no warning. -/
theorem parse_network_invariants_witness :
    (dictLookup ("A", "B")
      (parse_network_file
        [⟨"A", some 0, some 0⟩, ⟨":I", some 1, some 1⟩, ⟨"B", some 3, some 4⟩]
        [⟨"A", "B"⟩, ⟨"A", "Q"⟩]).edges).isSome ∧
    (parse_network_file
        [⟨"A", some 0, some 0⟩, ⟨":I", some 1, some 1⟩, ⟨"B", some 3, some 4⟩]
        [⟨"A", "B"⟩, ⟨"A", "Q"⟩]).warnings
      = (parse_network_file
        [⟨"A", some 0, some 0⟩, ⟨":I", some 1, some 1⟩, ⟨"B", some 3, some 4⟩]
        []).warnings := by
  have h := parse_network_invariants
    [⟨"A", some 0, some 0⟩, ⟨":I", some 1, some 1⟩, ⟨"B", some 3, some 4⟩]
    [⟨"A", "B"⟩, ⟨"A", "Q"⟩]
  refine ⟨?_, h.2.2.1⟩
  exact h.2.2.2 ⟨"A", "B"⟩ (by simp) (by decide) (by decide) (by decide) (by decide)

theorem exists_of_findSome_eq_some {α β : Type} {f : α → Option β} :
    ∀ {l : List α} {b : β}, l.findSome? f = some b → ∃ a ∈ l, f a = some b := by
  intro l
  induction l with
  | nil => intro b h; simp [List.findSome?] at h
  | cons x xs ih =>
      intro b h
      rw [List.findSome?] at h
      cases hfx : f x with
      | some y =>
          rw [hfx] at h
          exact ⟨x, List.mem_cons_self _ _, by rw [hfx]; exact h⟩
      | none =>
          rw [hfx] at h
          obtain ⟨a, ha, hfa⟩ := ih h
          exact ⟨a, List.mem_cons_of_mem _ ha, hfa⟩

theorem mem_succs {edges : List ((String × String) × ℚ)} {u v : String}
    (h : v ∈ succs edges u) : ∃ w, ((u, v), w) ∈ edges := by
  rw [succs] at h
  obtain ⟨e, he, hcond⟩ := List.mem_filterMap.1 h
  obtain ⟨⟨a, b⟩, w⟩ := e
  by_cases hq : a = u
  · subst hq
    simp at hcond
    subst hcond
    exact ⟨w, he⟩
  · simp [hq] at hcond

/-- A successful path search implies reachability. -/
theorem pathSearch_sound (edges : List ((String × String) × ℚ)) :
    ∀ (n : Nat) (visited : List String) (u t : String) (p : List String),
      pathSearch edges n visited u t = some p → Reaches edges u t := by
  intro n
  induction n with
  | zero => intro visited u t p h; simp [pathSearch] at h
  | succ n ih =>
      intro visited u t p h
      rw [pathSearch] at h
      by_cases hut : u = t
      · subst hut; exact Reaches.refl u
      · rw [if_neg hut] at h
        obtain ⟨v, hv, hfv⟩ := exists_of_findSome_eq_some h
        by_cases hvis : v ∈ visited
        · simp [hvis] at hfv
        · rw [if_neg hvis] at hfv
          cases hps : pathSearch edges n (v :: visited) v t with
          | none => rw [hps] at hfv; simp at hfv
          | some q =>
              obtain ⟨w, hw⟩ := mem_succs hv
              exact Reaches.step w hw (ih _ _ _ _ hps)

/-- C8: when the end junction is unreachable from the start junction the
route computation yields the explicit empty result — the embedded
`NetworkXNoPath` is caught at lines 111-113 and mapped to `[]` — and,
the embedding being a total function, no exception reaches the caller. -/
theorem no_route_returns_empty (g : NetGraph) (p q : ℚ × ℚ)
    (sj ej : String × ℚ × ℚ)
    (hs : nearestJunction p g.nodes = some sj)
    (he : nearestJunction q g.nodes = some ej)
    (hur : ¬ Reaches g.edges sj.1 ej.1) :
    nx_shortest_path g sj.1 ej.1 = none ∧ find_emergency_route g p q = [] := by
  have hnone : nx_shortest_path g sj.1 ej.1 = none := by
    cases hp : nx_shortest_path g sj.1 ej.1 with
    | none => rfl
    | some r => exact absurd (pathSearch_sound g.edges _ _ _ _ _ hp) hur
  refine ⟨hnone, ?_⟩
  simp only [find_emergency_route, hs, he, hnone]

theorem not_reaches_of_no_edges (a b : String) (hne : a ≠ b) :
    ¬ Reaches [] a b := by
  intro h
  cases h with
  | refl => exact hne rfl
  | step w hw hr => simp at hw

unseal Rat.mul Rat.add Rat.sub in
/-- Witness for C8: two junctions, no edges, `B` unreachable from `A`. -/
theorem no_route_returns_empty_witness :
    nx_shortest_path ⟨[("A", (0, 0)), ("B", (5, 0))], [], []⟩ "A" "B" = none ∧
    find_emergency_route ⟨[("A", (0, 0)), ("B", (5, 0))], [], []⟩ (0, 0) (5, 0) = [] := by
  have h := no_route_returns_empty ⟨[("A", (0, 0)), ("B", (5, 0))], [], []⟩
    (0, 0) (5, 0) ("A", (0, 0)) ("B", (5, 0)) (by decide) (by decide)
    (not_reaches_of_no_edges "A" "B" (by decide))
  exact h

/-- C9 (amended): with junction `a` nearest to both query points, the
embedded `nx.shortest_path` returns the single-junction route `[a]`
(length 1, zero segments), but `find_emergency_route` pairs consecutive
route junctions, so what the operation returns to its caller is the
EMPTY list — the same value as its no-route result. -/
theorem self_route_returns_empty (g : NetGraph) (p q : ℚ × ℚ)
    (a : String × ℚ × ℚ)
    (hs : nearestJunction p g.nodes = some a)
    (he : nearestJunction q g.nodes = some a) :
    nx_shortest_path g a.1 a.1 = some [a.1] ∧ find_emergency_route g p q = [] := by
  have hpath : nx_shortest_path g a.1 a.1 = some [a.1] := by
    simp [nx_shortest_path, pathSearch]
  refine ⟨hpath, ?_⟩
  simp only [find_emergency_route, hs, he, hpath, junction_routes]

/-- Counterexample to C9 as stated: on the one-junction graph the
shortest-route operation returns `[]` — an empty result
indistinguishable from "no route" — not a non-empty single-junction
route. -/
theorem self_route_counterexample :
    find_emergency_route ⟨[("A", (0, 0))], [], []⟩ (0, 0) (0, 0) = [] ∧
    nx_shortest_path ⟨[("A", (0, 0))], [], []⟩ "A" "A" = some ["A"] := by
  constructor <;> rfl

unseal Rat.mul Rat.add Rat.sub in
/-- Witness for C9 (amended) at a two-junction graph with an edge, both
query points nearest to `A`. -/
theorem self_route_returns_empty_witness :
    nx_shortest_path ⟨[("A", (0, 0)), ("B", (9, 0))], [(("A", "B"), 81)], []⟩ "A" "A"
      = some ["A"] ∧
    find_emergency_route ⟨[("A", (0, 0)), ("B", (9, 0))], [(("A", "B"), 81)], []⟩
      (1, 0) (0, 1) = [] := by
  have h := self_route_returns_empty
    ⟨[("A", (0, 0)), ("B", (9, 0))], [(("A", "B"), 81)], []⟩
    (1, 0) (0, 1) ("A", (0, 0)) (by decide) (by decide)
  exact h

theorem dictLookup_eq_none_iff {κ β : Type} [DecidableEq κ] (k : κ)
    (l : List (κ × β)) : dictLookup k l = none ↔ ∀ p ∈ l, p.1 ≠ k := by
  constructor
  · intro h p hp hpk
    induction l with
    | nil => simp at hp
    | cons q rest ih =>
        rw [dictLookup_cons] at h
        by_cases hq : q.1 = k
        · simp [hq] at h
        · rcases List.mem_cons.1 hp with h1 | h1
          · exact hq (h1 ▸ hpk)
          · exact ih (by simpa [hq] using h) h1
  · intro h
    induction l with
    | nil => rfl
    | cons q rest ih =>
        rw [dictLookup_cons, if_neg (h q (List.mem_cons_self _ _))]
        exact ih (fun p hp => h p (List.mem_cons_of_mem _ hp))

theorem dictErase_dictInsert {κ β : Type} [DecidableEq κ] (k : κ) (v : β) :
    ∀ l : List (κ × β), (∀ p ∈ l, p.1 ≠ k) → dictErase k (dictInsert k v l) = l := by
  intro l
  induction l with
  | nil => simp [dictInsert, dictErase]
  | cons q rest ih =>
      intro h
      have hq : q.1 ≠ k := h q (List.mem_cons_self _ _)
      rw [dictInsert, if_neg hq, dictErase, if_neg hq,
        ih (fun p hp => h p (List.mem_cons_of_mem _ hp))]

/-- Helper: a capture on a junction that already has a snapshot is a
no-op (the guard at lines 70-71). -/
theorem capture_noop_of_isSome (env : Env) (j : String) (w : World) (s : MgrState)
    (h : (dictLookup j s.original_states).isSome) : capture env j w s = s := by
  rw [capture, if_pos h]

/-- Helper: after a successful capture a snapshot is present. -/
theorem lookup_capture_isSome (env : Env) (j : String) (w : World) (s : MgrState)
    (hok : env.captureFails j = false) :
    (dictLookup j (capture env j w s).original_states).isSome := by
  by_cases h : (dictLookup j s.original_states).isSome
  · rw [capture_noop_of_isSome env j w s h]; exact h
  · rw [capture, if_neg h, capture_original_state, hok]
    simp [dictLookup_dictInsert_self]

/-- C6: `capture` is idempotent — a second (or any further) capture of
junction `j` before a restore is a no-op, and the snapshot stored for
`j` is exactly the one observed at the first capture, regardless of
what the junction's signal state has meanwhile become (`w'`). -/
theorem capture_idempotent (env : Env) (j : String) (w w' : World) (s : MgrState)
    (hok : env.captureFails j = false) :
    capture env j w' (capture env j w s) = capture env j w s ∧
    (dictLookup j s.original_states = none →
      dictLookup j (capture env j w s).original_states = some (snapshotOf (w j))) := by
  constructor
  · exact capture_noop_of_isSome env j w' _ (lookup_capture_isSome env j w s hok)
  · intro hnone
    rw [capture, if_neg (by simp [hnone]), capture_original_state, hok]
    simp [dictLookup_dictInsert_self]

/-- Witness for C6 on a concrete junction: the second capture observes a
changed signal (`w'`), but the stored snapshot stays the first one. -/
theorem capture_idempotent_witness :
    capture noFailEnv "J" (fun _ => ⟨["rr"], 0, "p1", 10⟩)
        (capture noFailEnv "J" (fun _ => ⟨["GG", "rr"], 1, "p0", 30⟩) ⟨[], []⟩)
      = capture noFailEnv "J" (fun _ => ⟨["GG", "rr"], 1, "p0", 30⟩) ⟨[], []⟩ ∧
    dictLookup "J"
        (capture noFailEnv "J" (fun _ => ⟨["GG", "rr"], 1, "p0", 30⟩)
          ⟨[], []⟩).original_states
      = some (snapshotOf ⟨["GG", "rr"], 1, "p0", 30⟩) := by
  have h := capture_idempotent noFailEnv "J" (fun _ => ⟨["GG", "rr"], 1, "p0", 30⟩)
    (fun _ => ⟨["rr"], 0, "p1", 10⟩) ⟨[], []⟩ rfl
  exact ⟨h.1, h.2 rfl⟩

/-- C2 (amended): capture followed immediately by restore (no
intervening override) reapplies the captured active program identifier
verbatim and discards the snapshot, but does NOT reapply the captured
phase state string: `_restore_junction` unconditionally sets phase index
0, so after the round trip the junction shows its phase-0 state and
only `phaseIndex` may differ from the pre-capture state. -/
theorem capture_restore_roundtrip (j : String) (w : World) (s : MgrState)
    (hnone : dictLookup j s.original_states = none) :
    (restore_junction noFailEnv j (capture noFailEnv j w s) w).2 j
      = { w j with phaseIndex := 0 } ∧
    (restore_junction noFailEnv j (capture noFailEnv j w s) w).1.original_states
      = s.original_states := by
  have hcap : (capture noFailEnv j w s).original_states
      = dictInsert j (snapshotOf (w j)) s.original_states := by
    rw [capture, if_neg (by simp [hnone]), capture_original_state]
    rfl
  have hlook : dictLookup j (capture noFailEnv j w s).original_states
      = some (snapshotOf (w j)) := by
    rw [hcap, dictLookup_dictInsert_self]
  constructor
  · rw [restore_junction, hlook]
    simp [noFailEnv, updateW, snapshotOf]
  · rw [restore_junction, hlook]
    simp only [noFailEnv]
    rw [if_neg (by simp)]
    show dictErase j (capture noFailEnv j w s).original_states = s.original_states
    rw [hcap, dictErase_dictInsert j _ _ ((dictLookup_eq_none_iff j _).1 hnone)]

/-- Counterexample to C2 as stated: junction `J` is in phase 1 showing
`"rr"`; after capture and restore it shows `"GG"` (phase 0) — the
captured phase state string `"rr"` is not reapplied, so the observable
signal state is NOT unchanged by the round trip. -/
theorem capture_restore_counterexample :
    displayedState ((fun _ => (⟨["GG", "rr"], 1, "p0", 30⟩ : TLState)) "J") = "rr" ∧
    displayedState
        ((restore_junction noFailEnv "J"
          (capture noFailEnv "J" (fun _ => ⟨["GG", "rr"], 1, "p0", 30⟩) ⟨[], []⟩)
          (fun _ => ⟨["GG", "rr"], 1, "p0", 30⟩)).2 "J")
      = "GG" ∧
    "GG" ≠ "rr" := by
  exact ⟨rfl, rfl, by decide⟩

/-- Witness for C2 (amended) at the same concrete junction. -/
theorem capture_restore_roundtrip_witness :
    (restore_junction noFailEnv "J"
        (capture noFailEnv "J" (fun _ => ⟨["GG", "rr"], 1, "p0", 30⟩) ⟨[], []⟩)
        (fun _ => ⟨["GG", "rr"], 1, "p0", 30⟩)).2 "J"
      = ⟨["GG", "rr"], 0, "p0", 30⟩ ∧
    (restore_junction noFailEnv "J"
        (capture noFailEnv "J" (fun _ => ⟨["GG", "rr"], 1, "p0", 30⟩) ⟨[], []⟩)
        (fun _ => ⟨["GG", "rr"], 1, "p0", 30⟩)).1.original_states
      = [] := by
  have h := capture_restore_roundtrip "J" (fun _ => ⟨["GG", "rr"], 1, "p0", 30⟩)
    ⟨[], []⟩ rfl
  exact h

/-- C3: from the initial manager state (empty `original_states`, empty
`active_emergency_junctions`), `manage_traffic_lights` always returns
without raising and changes nothing — the state stays empty and the
simulator world is untouched; moreover, whenever at least one emergency
vehicle is detected, the body raises (the missing `route_predictor`
attribute, or `ValueError` on an empty junction list) before any state
mutation, and the top-level handler absorbs it, so this method never
overrides a junction, never stores a snapshot and never triggers a
restoration. -/
theorem manage_traffic_lights_inert (env : Env) (allJunctions : List String)
    (vehicles : List String) (s : MgrState) (w : World)
    (h1 : s.original_states = []) (h2 : s.active_emergency_junctions = []) :
    manage_traffic_lights env allJunctions vehicles s w = (s, w) ∧
    (vehicles ≠ [] → ∃ e, manage_body env allJunctions vehicles s w = .error e) := by
  cases vehicles with
  | nil =>
      refine ⟨?_, fun h => absurd rfl h⟩
      obtain ⟨os, aj⟩ := s
      simp only at h1 h2
      subst h1
      subst h2
      rfl
  | cons v vs =>
      refine ⟨?_, fun _ => ⟨_, rfl⟩⟩
      rfl

/-- Witness for C3: one detected emergency vehicle, one junction, fresh
manager state — nothing happens. -/
theorem manage_traffic_lights_inert_witness :
    manage_traffic_lights noFailEnv ["J1"] ["emergency_1"] ⟨[], []⟩
        (fun _ => ⟨["rG"], 0, "p0", 30⟩)
      = (⟨[], []⟩, fun _ => ⟨["rG"], 0, "p0", 30⟩) ∧
    (∃ e, manage_body noFailEnv ["J1"] ["emergency_1"] ⟨[], []⟩
        (fun _ => ⟨["rG"], 0, "p0", 30⟩) = .error e) := by
  have h := manage_traffic_lights_inert noFailEnv ["J1"] ["emergency_1"] ⟨[], []⟩
    (fun _ => ⟨["rG"], 0, "p0", 30⟩) rfl rfl
  exact ⟨h.1, h.2 (by simp)⟩

theorem dropKey_nil {κ β : Type} [DecidableEq κ] (k : κ) :
    dropKey k ([] : List (κ × β)) = [] := rfl

theorem dropKey_cons {κ β : Type} [DecidableEq κ] (k : κ) (q : κ × β)
    (l : List (κ × β)) :
    dropKey k (q :: l) = if q.1 = k then dropKey k l else q :: dropKey k l := by
  by_cases h : q.1 = k <;> simp [dropKey, List.filter_cons, h]

theorem dropKey_dictInsert_ne {κ β : Type} [DecidableEq κ] (k j : κ) (v : β)
    (hne : j ≠ k) : ∀ l : List (κ × β),
    dropKey k (dictInsert j v l) = dictInsert j v (dropKey k l) := by
  intro l
  induction l with
  | nil => simp [dictInsert, dropKey_cons, dropKey_nil, hne]
  | cons q rest ih =>
      by_cases hqj : q.1 = j
      · have hqk : q.1 ≠ k := by rw [hqj]; exact hne
        simp [dictInsert, hqj, dropKey_cons, hqk, hne]
      · by_cases hqk : q.1 = k
        · simpa [dictInsert, hqj, dropKey_cons, hqk, Ne.symm hne] using ih
        · simp [dictInsert, hqj, dropKey_cons, hqk, ih]

theorem dropKey_dictInsert_self {κ β : Type} [DecidableEq κ] (k : κ) (v : β) :
    ∀ l : List (κ × β), dropKey k (dictInsert k v l) = dropKey k l := by
  intro l
  induction l with
  | nil => simp [dictInsert, dropKey_cons, dropKey_nil]
  | cons q rest ih =>
      by_cases hq : q.1 = k
      · simp [dictInsert, hq, dropKey_cons]
      · simp [dictInsert, hq, dropKey_cons, ih]

theorem dropKey_dictErase_ne {κ β : Type} [DecidableEq κ] (k j : κ)
    (hne : j ≠ k) : ∀ l : List (κ × β),
    dropKey k (dictErase j l) = dictErase j (dropKey k l) := by
  intro l
  induction l with
  | nil => rfl
  | cons q rest ih =>
      by_cases hqj : q.1 = j
      · have hqk : q.1 ≠ k := by rw [hqj]; exact hne
        simp [dictErase, hqj, dropKey_cons, hqk, hne]
      · by_cases hqk : q.1 = k
        · simpa [dictErase, hqj, dropKey_cons, hqk, Ne.symm hne] using ih
        · simp [dictErase, hqj, dropKey_cons, hqk, ih]

theorem dropKey_dictErase_self {κ β : Type} [DecidableEq κ] (k : κ) :
    ∀ l : List (κ × β), dropKey k (dictErase k l) = dropKey k l := by
  intro l
  induction l with
  | nil => rfl
  | cons q rest ih =>
      by_cases hq : q.1 = k
      · simp [dictErase, hq, dropKey_cons]
      · simp [dictErase, hq, dropKey_cons, ih]

theorem dictLookup_dropKey {κ β : Type} [DecidableEq κ] (k j : κ) (hne : j ≠ k) :
    ∀ l : List (κ × β), dictLookup j (dropKey k l) = dictLookup j l := by
  intro l
  induction l with
  | nil => rfl
  | cons q rest ih =>
      by_cases hqk : q.1 = k
      · have hqj : q.1 ≠ j := fun hh => hne (by rw [← hh, hqk])
        simp [dropKey_cons, hqk, dictLookup_cons, hqj, Ne.symm hne, ih]
      · simp [dropKey_cons, hqk, dictLookup_cons, ih]

theorem set_junction_priority_world (env : Env) (j : String) (s : MgrState)
    (w : World) :
    (set_junction_priority env j s w).2
      = if env.applyFails j then w else applyOverride j w := rfl

theorem set_junction_priority_state (env : Env) (j : String) (s : MgrState)
    (w : World) :
    (set_junction_priority env j s w).1 = capture env j w s := rfl

theorem capture_noop_of_fails (env : Env) (j : String) (w : World) (s : MgrState)
    (hf : env.captureFails j = true) : capture env j w s = s := by
  rw [capture]
  by_cases h : (dictLookup j s.original_states).isSome
  · rw [if_pos h]
  · rw [if_neg h, capture_original_state]
    simp [hf]

theorem dropKey_capture_self (env : Env) (k : String) (w : World) (s : MgrState) :
    dropKey k (capture env k w s).original_states
      = dropKey k s.original_states := by
  rw [capture]
  by_cases h : (dictLookup k s.original_states).isSome
  · rw [if_pos h]
  · rw [if_neg h, capture_original_state]
    by_cases hf : env.captureFails k
    · simp [hf]
    · simp [hf, dropKey_dictInsert_self]

theorem set_junction_priority_agree (env : Env) (k j0 : String)
    (a b : MgrState × World) (h : agreeOutside k a b) :
    agreeOutside k (set_junction_priority (failAllAt k env) j0 a.1 a.2)
      (set_junction_priority env j0 b.1 b.2) := by
  obtain ⟨hw, ho⟩ := h
  by_cases hk : j0 = k
  · subst hk
    constructor
    · intro j hj
      rw [set_junction_priority_world, set_junction_priority_world]
      have hfa : (failAllAt j0 env).applyFails j0 = true := by simp [failAllAt]
      rw [hfa, if_pos rfl]
      have hbw : (if env.applyFails j0 then b.2 else applyOverride j0 b.2) j = b.2 j := by
        by_cases hf : env.applyFails j0
        · simp [hf]
        · simp [hf, applyOverride, updateW, hj]
      rw [hbw]
      exact hw j hj
    · rw [set_junction_priority_state, set_junction_priority_state]
      rw [capture_noop_of_fails _ _ _ _ (by simp [failAllAt])]
      rw [dropKey_capture_self]
      exact ho
  · have hl : dictLookup j0 a.1.original_states = dictLookup j0 b.1.original_states := by
      rw [← dictLookup_dropKey k j0 hk a.1.original_states, ho,
        dictLookup_dropKey k j0 hk]
    have hfa : (failAllAt k env).applyFails j0 = env.applyFails j0 := by
      simp [failAllAt, hk]
    have hfc : (failAllAt k env).captureFails j0 = env.captureFails j0 := by
      simp [failAllAt, hk]
    constructor
    · intro j hj
      rw [set_junction_priority_world, set_junction_priority_world, hfa]
      by_cases hf : env.applyFails j0
      · simp only [hf, if_true]
        exact hw j hj
      · simp only [hf, if_false]
        by_cases hjj : j = j0
        · subst hjj
          simp [applyOverride, updateW, hw j hj]
        · simp [applyOverride, updateW, hjj]
          exact hw j hj
    · rw [set_junction_priority_state, set_junction_priority_state]
      by_cases hsome : (dictLookup j0 a.1.original_states).isSome
      · have hsome' : (dictLookup j0 b.1.original_states).isSome := hl ▸ hsome
        rw [capture_noop_of_isSome _ _ _ _ hsome, capture_noop_of_isSome _ _ _ _ hsome']
        exact ho
      · have hsome' : ¬ (dictLookup j0 b.1.original_states).isSome := by
          rw [← hl]; exact hsome
        rw [capture, if_neg hsome, capture, if_neg hsome',
          capture_original_state, capture_original_state, hfc]
        by_cases hcf : env.captureFails j0
        · simp only [hcf, if_true]
          exact ho
        · simp only [hcf, if_false]
          rw [hw j0 hk]
          show dropKey k (dictInsert j0 (snapshotOf (b.2 j0)) a.1.original_states)
            = dropKey k (dictInsert j0 (snapshotOf (b.2 j0)) b.1.original_states)
          rw [dropKey_dictInsert_ne k j0 _ hk, dropKey_dictInsert_ne k j0 _ hk, ho]

theorem restore_junction_agree (env : Env) (k j0 : String)
    (a b : MgrState × World) (h : agreeOutside k a b) :
    agreeOutside k (restore_junction (failAllAt k env) j0 a.1 a.2)
      (restore_junction env j0 b.1 b.2) := by
  obtain ⟨hw, ho⟩ := h
  by_cases hk : j0 = k
  · subst hk
    have ha : restore_junction (failAllAt j0 env) j0 a.1 a.2 = (a.1, a.2) := by
      cases hl : dictLookup j0 a.1.original_states with
      | none => simp [restore_junction, hl]
      | some snap => simp [restore_junction, hl, failAllAt]
    constructor
    · intro j hj
      rw [ha]
      have hb : (restore_junction env j0 b.1 b.2).2 j = b.2 j := by
        cases hl : dictLookup j0 b.1.original_states with
        | none => simp [restore_junction, hl]
        | some snap =>
            by_cases hf : env.restoreFails j0
            · simp [restore_junction, hl, hf]
            · simp [restore_junction, hl, hf, updateW, hj]
      rw [hb]
      exact hw j hj
    · rw [ha]
      have hb : dropKey j0 (restore_junction env j0 b.1 b.2).1.original_states
          = dropKey j0 b.1.original_states := by
        cases hl : dictLookup j0 b.1.original_states with
        | none => simp [restore_junction, hl]
        | some snap =>
            by_cases hf : env.restoreFails j0
            · simp [restore_junction, hl, hf]
            · simp [restore_junction, hl, hf, dropKey_dictErase_self]
      rw [hb]
      exact ho
  · have hl : dictLookup j0 a.1.original_states = dictLookup j0 b.1.original_states := by
      rw [← dictLookup_dropKey k j0 hk a.1.original_states, ho,
        dictLookup_dropKey k j0 hk]
    have hfr : (failAllAt k env).restoreFails j0 = env.restoreFails j0 := by
      simp [failAllAt, hk]
    cases hlb : dictLookup j0 b.1.original_states with
    | none =>
        have hla : dictLookup j0 a.1.original_states = none := by rw [hl, hlb]
        exact ⟨fun j hj => by simp [restore_junction, hla, hlb]; exact hw j hj,
          by simp [restore_junction, hla, hlb]; exact ho⟩
    | some snap =>
        have hla : dictLookup j0 a.1.original_states = some snap := by rw [hl, hlb]
        by_cases hf : env.restoreFails j0
        · refine ⟨fun j hj => ?_, ?_⟩
          · simp [restore_junction, hla, hlb, hfr, hf]
            exact hw j hj
          · simp [restore_junction, hla, hlb, hfr, hf]
            exact ho
        · refine ⟨fun j hj => ?_, ?_⟩
          · simp only [restore_junction, hla, hlb, hfr, hf, if_false]
            by_cases hjj : j = j0
            · subst hjj
              simp [updateW, hw j hj]
            · simp [updateW, hjj]
              exact hw j hj
          · simp only [restore_junction, hla, hlb, hfr, hf, if_false]
            show dropKey k (dictErase j0 a.1.original_states)
              = dropKey k (dictErase j0 b.1.original_states)
            rw [dropKey_dictErase_ne k j0 hk, dropKey_dictErase_ne k j0 hk, ho]

theorem foldl_rel {α σ τ : Type} (R : σ → τ → Prop) (f : σ → α → σ)
    (g : τ → α → τ) (hstep : ∀ s t a, R s t → R (f s a) (g t a)) :
    ∀ (l : List α) (s : σ) (t : τ), R s t → R (l.foldl f s) (l.foldl g t) := by
  intro l
  induction l with
  | nil => intro s t h; exact h
  | cons x xs ih => intro s t h; exact ih _ _ (hstep s t x h)

theorem run_tick_agree (env : Env) (k : String) (overrides restores : List String)
    (s : MgrState) (w : World) :
    agreeOutside k (run_tick (failAllAt k env) overrides restores s w)
      (run_tick env overrides restores s w) := by
  rw [run_tick, run_tick]
  apply foldl_rel (agreeOutside k) _ _
    (fun a b j0 h => restore_junction_agree env k j0 a b h)
  apply foldl_rel (agreeOutside k) _ _
    (fun a b j0 h => set_junction_priority_agree env k j0 a b h)
  exact ⟨fun j _ => rfl, rfl⟩

/-- C4: within one controller tick, making every capture/apply/restore
operation fail for one junction `k` leaves the processing of every
other junction unchanged — same resulting signal state and same stored
snapshot at every junction `j ≠ k` — because each of those operations
traps its own exceptions at per-junction granularity and the loops run
to completion (the embedded tick is a total function). -/
theorem per_junction_fault_containment (env : Env) (k : String)
    (overrides restores : List String) (s : MgrState) (w : World) :
    ∀ j, j ≠ k →
      (run_tick (failAllAt k env) overrides restores s w).2 j
        = (run_tick env overrides restores s w).2 j ∧
      dictLookup j (run_tick (failAllAt k env) overrides restores s w).1.original_states
        = dictLookup j (run_tick env overrides restores s w).1.original_states := by
  intro j hj
  have h := run_tick_agree env k overrides restores s w
  exact ⟨h.1 j hj,
    by rw [← dictLookup_dropKey k j hj, h.2, dictLookup_dropKey k j hj]⟩

/-- Witness for C4: junction `K` fails everything, junction `J` is
still processed identically. -/
theorem per_junction_fault_containment_witness :
    (run_tick (failAllAt "K" noFailEnv) ["K", "J"] ["K"] ⟨[], []⟩
        (fun _ => ⟨["rG"], 0, "p0", 30⟩)).2 "J"
      = (run_tick noFailEnv ["K", "J"] ["K"] ⟨[], []⟩
        (fun _ => ⟨["rG"], 0, "p0", 30⟩)).2 "J" ∧
    dictLookup "J" (run_tick (failAllAt "K" noFailEnv) ["K", "J"] ["K"] ⟨[], []⟩
        (fun _ => ⟨["rG"], 0, "p0", 30⟩)).1.original_states
      = dictLookup "J" (run_tick noFailEnv ["K", "J"] ["K"] ⟨[], []⟩
        (fun _ => ⟨["rG"], 0, "p0", 30⟩)).1.original_states := by
  exact per_junction_fault_containment noFailEnv "K" ["K", "J"] ["K"] ⟨[], []⟩
    (fun _ => ⟨["rG"], 0, "p0", 30⟩) "J" (by decide)

unseal Rat.mul Rat.add Rat.sub in
/-- Counterexample to C5 as stated: a vehicle at Euclidean distance
exactly 50 — equal to the configured proximity radius — is NOT within
range: both range checks in the sources read `if distance < 50:`
(strict), so distance = radius does not count, contradicting the
claimed non-strict `≤`. -/
theorem isWithinRange_boundary_counterexample :
    Real.sqrt ((dist_sq (0, 0) (50, 0) : ℚ) : ℝ) = 50 ∧
    isWithinRange (0, 0) (50, 0) = false := by
  constructor
  · have h : ((dist_sq (0, 0) (50, 0) : ℚ) : ℝ) = 2500 := by
      norm_num [dist_sq]
    rw [h, show (2500:ℝ) = 50 ^ 2 by norm_num,
      Real.sqrt_sq (by norm_num : (0:ℝ) ≤ 50)]
  · decide

/-- A tick with at least one within-range emergency vehicle leaves the
controller overridden with `last_emergency_time` refreshed. -/
theorem emStep_override (st : EmState) (tk : EmTick)
    (h : tk.vehicles.any (fun v => decide (v.2 < 50 * 50)) = true) :
    emStep st tk = ⟨true, tk.time, true⟩ := by
  have hne : tk.vehicles.isEmpty = false := by
    cases hv : tk.vehicles with
    | nil => rw [hv] at h; simp [List.any] at h
    | cons a l => rfl
  simp [emStep, hne, h]

/-- Once restored (flag down), vehicle-free ticks change nothing. -/
theorem runEm_frozen (l : ℚ) (o : Bool) :
    ∀ ticks : List EmTick, (∀ tk ∈ ticks, tk.vehicles = []) →
      runEm ⟨false, l, o⟩ ticks = ⟨false, l, o⟩ := by
  intro ticks
  induction ticks with
  | nil => intro _; rfl
  | cons tk rest ih =>
      intro h
      have h1 : tk.vehicles = [] := h tk (List.mem_cons_self _ _)
      have hstep : emStep ⟨false, l, o⟩ tk = ⟨false, l, o⟩ := by
        simp [emStep, h1]
      simp only [runEm, List.foldl_cons, hstep]
      exact ih (fun tk hk => h tk (List.mem_cons_of_mem _ hk))

/-- Starting overridden with `last_emergency_time = T`, over any run of
vehicle-free ticks the override is still up at the end exactly when no
tick's time exceeded `T + 5`; the restore timer is never refreshed. -/
theorem runEm_hysteresis (T : ℚ) :
    ∀ ticks : List EmTick, (∀ tk ∈ ticks, tk.vehicles = []) →
      (runEm ⟨true, T, true⟩ ticks).overridden
        = !(ticks.any (fun tk => decide (5 < tk.time - T))) ∧
      (runEm ⟨true, T, true⟩ ticks).last_emergency_time = T := by
  intro ticks
  induction ticks with
  | nil => intro _; exact ⟨rfl, rfl⟩
  | cons tk rest ih =>
      intro h
      have h1 : tk.vehicles = [] := h tk (List.mem_cons_self _ _)
      have hrest : ∀ tk ∈ rest, tk.vehicles = [] :=
        fun tk hk => h tk (List.mem_cons_of_mem _ hk)
      by_cases hc : 5 < tk.time - T
      · have hstep : emStep ⟨true, T, true⟩ tk = ⟨false, T, false⟩ := by
          simp [emStep, h1, hc]
        have hfroz := runEm_frozen T false rest hrest
        simp only [runEm, List.foldl_cons, hstep] at *
        rw [hfroz]
        simp [List.any_cons, hc, h1]
      · have hstep : emStep ⟨true, T, true⟩ tk = ⟨true, T, true⟩ := by
          simp [emStep, h1, hc]
        have hih := ih hrest
        simp only [runEm, List.foldl_cons, hstep] at *
        rw [hih.1, hih.2]
        simp [List.any_cons, hc, h1]

/-- C1 (amended): a junction overridden at a tick with simulated time
`T` whose justifying vehicles then disappear entirely stays `OVERRIDDEN`
on every subsequent tick with `time - T ≤ 5` — in particular it is
never restored in the same tick the vehicles disappear, and NOT at a
tick with time exactly `T + 5` — and is restored at the first tick with
`time - T > 5` (line 91 compares `current_time - last_emergency_time >
5` STRICTLY), staying restored afterwards. -/
theorem emergency_hysteresis (st : EmState) (tk0 : EmTick) (ticks : List EmTick)
    (h0 : tk0.vehicles.any (fun v => decide (v.2 < 50 * 50)) = true)
    (hafter : ∀ tk ∈ ticks, tk.vehicles = []) :
    emStep st tk0 = ⟨true, tk0.time, true⟩ ∧
    (runEm st (tk0 :: ticks)).overridden
      = !(ticks.any (fun tk => decide (5 < tk.time - tk0.time))) ∧
    (runEm st (tk0 :: ticks)).last_emergency_time = tk0.time := by
  have hstep := emStep_override st tk0 h0
  have hrun : runEm st (tk0 :: ticks) = runEm ⟨true, tk0.time, true⟩ ticks := by
    simp only [runEm, List.foldl_cons, hstep]
  have h := runEm_hysteresis tk0.time ticks hafter
  exact ⟨hstep, hrun ▸ h.1, hrun ▸ h.2⟩

unseal Rat.mul Rat.add Rat.sub in
/-- Counterexample to C1 as stated: the cluster is overridden at time
T = 0; at the next tick the vehicles are gone and the simulated time is
5 = T + restorationDelay, so the claim demands restoration — but the
code's strict `> 5` comparison keeps the override in place. -/
theorem emergency_hysteresis_counterexample :
    (5:ℚ) ≥ 0 + 5 ∧
    (runEm emInit [⟨0, [("emergency_1", 100)]⟩, ⟨5, []⟩]).overridden = true := by
  exact ⟨by decide, by decide⟩

unseal Rat.mul Rat.add Rat.sub in
/-- Witness for C1 (amended): override at time 0, still overridden at
time 3, restored once a tick at time 6 > 5 arrives. -/
theorem emergency_hysteresis_witness :
    emStep emInit ⟨0, [("emergency_1", 100)]⟩ = ⟨true, 0, true⟩ ∧
    (runEm emInit [⟨0, [("emergency_1", 100)]⟩, ⟨3, []⟩, ⟨6, []⟩]).overridden
      = false ∧
    (runEm emInit
      [⟨0, [("emergency_1", 100)]⟩, ⟨3, []⟩, ⟨6, []⟩]).last_emergency_time = 0 := by
  have h := emergency_hysteresis emInit ⟨0, [("emergency_1", 100)]⟩
    [⟨3, []⟩, ⟨6, []⟩] (by decide) (by decide)
  refine ⟨h.1, ?_, h.2.2⟩
  rw [h.2.1]
  decide

end SumoSim

